import Mathlib

/-!
Verification development for the krashbot repository (config.py, db.py,
handlers.py, bot.py): a shallow embedding of the session-scoped cart/order
state machine, the order commit/cancel protocol, the registration
validation, the database cancel/lookup operations and the admin reporting
aggregation, together with theorems settling the specification's claims.

Conventions: datetimes are modelled as `Int` seconds (a `timedelta` of six
hours is `6 * 3600`); Python dicts keyed by id are association lists; the
per-user projections of the handler state (`user_carts[uid]["items"]`,
`current_editing[uid]`, `selected_dates.get(uid)`, `last_orders[uid]`) are
modelled directly, since no handler touches another user's entries.
-/

/-- A product record from `config.py` `PRODUCTS`: note that `id` is a
string (`"1"` .. `"13"`) in the source. -/
structure Product where
  id : String
  title : String
  description : String
deriving DecidableEq, Repr

/-- A cart line, as stored in `user_carts[user_id]["items"]`
(`handlers.py`): a product record plus a quantity. -/
structure CartItem where
  product : Product
  quantity : Nat
deriving DecidableEq, Repr

/-- The add-to-cart loop of `BotHandlers.enter_quantity`
(`handlers.py` lines 160-166, identically `bot.py` lines 407-413): scan
the cart for a line whose `product.id` matches; increment the first match
and stop, else append a new line. -/
def add_to_cart : List CartItem → Product → Nat → List CartItem
  | [], p, q => [⟨p, q⟩]
  | item :: rest, p, q =>
    if item.product.id = p.id then
      { item with quantity := item.quantity + q } :: rest
    else
      item :: add_to_cart rest p q

/-- `enter_quantity` lines 160-168: mutate the cart, then set
`current_editing[user_id] = len(cart) - 1`. Returns the new cart and the
new editing index. -/
def add_and_cursor (cart : List CartItem) (p : Product) (q : Nat) :
    List CartItem × Nat :=
  let cart' := add_to_cart cart p q
  (cart', cart'.length - 1)

/-- The product ids of the cart lines, in order. -/
def cartIds (cart : List CartItem) : List String :=
  cart.map (fun it => it.product.id)

/-- Total quantity held by the lines for product id `pid`. -/
def qsum (pid : String) : List CartItem → Nat
  | [] => 0
  | it :: rest => (if it.product.id = pid then it.quantity else 0) + qsum pid rest

/-- Total quantity added for product id `pid` by a sequence of
(product, quantity) add operations. -/
def opsSum (pid : String) : List (Product × Nat) → Nat
  | [] => 0
  | op :: rest => (if op.1.id = pid then op.2 else 0) + opsSum pid rest

/-- Run a sequence of add-to-cart operations starting from the empty cart. -/
def runAdds (ops : List (Product × Nat)) : List CartItem :=
  ops.foldl (fun c op => add_to_cart c op.1 op.2) []

/-- The `remove_item` branch of `BotHandlers.handle_callback_query`
(`handlers.py` lines 470-480, identically `bot.py` lines 729-741): when the
cursor is a valid index, delete the line at it; if lines remain, re-clamp
the cursor to `min(idx, len - 1)`, else clear the cursor. Returns the new
cart and the new cursor (`none` when the cursor entry is deleted). -/
def remove_item (cart : List CartItem) (idx : Nat) : List CartItem × Option Nat :=
  if idx < cart.length then
    let cart' := cart.eraseIdx idx
    if cart'.isEmpty then (cart', none)
    else (cart', some (min idx (cart'.length - 1)))
  else (cart, some idx)

theorem add_to_cart_qsum (c : List CartItem) (p : Product) (q : Nat) (pid : String) :
    qsum pid (add_to_cart c p q) = qsum pid c + (if p.id = pid then q else 0) := by
  induction c with
  | nil => simp [add_to_cart, qsum]
  | cons it rest ih =>
    by_cases h : it.product.id = p.id
    · simp only [add_to_cart, if_pos h, qsum, h]
      by_cases h2 : p.id = pid
      · simp [h2]; omega
      · simp [h2]
    · simp only [add_to_cart, if_neg h, qsum, ih]
      omega

theorem add_to_cart_ids (c : List CartItem) (p : Product) (q : Nat) :
    cartIds (add_to_cart c p q) =
      if p.id ∈ cartIds c then cartIds c else cartIds c ++ [p.id] := by
  induction c with
  | nil => simp [add_to_cart, cartIds]
  | cons it rest ih =>
    by_cases h : it.product.id = p.id
    · simp [add_to_cart, if_pos h, cartIds, h]
    · have h' : ¬ p.id = it.product.id := fun hh => h hh.symm
      simp only [add_to_cart, if_neg h, cartIds, List.map_cons, List.mem_cons]
      simp only [cartIds] at ih
      rw [ih]
      by_cases hm : p.id ∈ rest.map (fun it => it.product.id)
      · simp [hm, h']
      · simp [hm, h']

theorem add_to_cart_mem_ids (c : List CartItem) (p : Product) (q : Nat) (pid : String) :
    pid ∈ cartIds (add_to_cart c p q) ↔ pid ∈ cartIds c ∨ pid = p.id := by
  rw [add_to_cart_ids]
  by_cases hm : p.id ∈ cartIds c
  · simp only [if_pos hm]
    constructor
    · exact fun h => Or.inl h
    · rintro (h | h)
      · exact h
      · exact h ▸ hm
  · simp [if_neg hm]

theorem add_to_cart_nodup (c : List CartItem) (p : Product) (q : Nat)
    (h : (cartIds c).Nodup) : (cartIds (add_to_cart c p q)).Nodup := by
  rw [add_to_cart_ids]
  by_cases hm : p.id ∈ cartIds c
  · simpa [hm] using h
  · simp [hm, List.nodup_append, h]

theorem qsum_eq_zero_of_not_mem (c : List CartItem) (pid : String)
    (h : pid ∉ cartIds c) : qsum pid c = 0 := by
  induction c with
  | nil => rfl
  | cons it rest ih =>
    simp only [cartIds, List.map_cons, List.mem_cons] at h
    push_neg at h
    have h1 : ¬ it.product.id = pid := fun hh => h.1 hh.symm
    simp only [qsum, if_neg h1, Nat.zero_add]
    exact ih (by simpa [cartIds] using h.2)

theorem qsum_line (c : List CartItem) (it : CartItem)
    (hnd : (cartIds c).Nodup) (hm : it ∈ c) :
    qsum it.product.id c = it.quantity := by
  induction c with
  | nil => cases hm
  | cons hd rest ih =>
    simp only [cartIds, List.map_cons, List.nodup_cons] at hnd
    rcases List.mem_cons.mp hm with h | h
    · subst h
      simp only [qsum, if_pos rfl]
      have : it.product.id ∉ cartIds rest := by simpa [cartIds] using hnd.1
      rw [qsum_eq_zero_of_not_mem rest _ this]
      simp
    · have hne : ¬ hd.product.id = it.product.id := by
        intro hh
        exact hnd.1 (hh ▸ (List.mem_map_of_mem (fun x => x.product.id) h))
      simp only [qsum, if_neg hne, Nat.zero_add]
      exact ih (by simpa [cartIds] using hnd.2) h

theorem runAdds_qsum_aux (pid : String) (ops : List (Product × Nat)) :
    ∀ c : List CartItem,
      qsum pid (ops.foldl (fun c op => add_to_cart c op.1 op.2) c)
        = qsum pid c + opsSum pid ops := by
  induction ops with
  | nil => intro c; simp [opsSum]
  | cons op rest ih =>
    intro c
    simp only [List.foldl_cons, opsSum]
    rw [ih, add_to_cart_qsum]
    omega

theorem runAdds_nodup_aux (ops : List (Product × Nat)) :
    ∀ c : List CartItem, (cartIds c).Nodup →
      (cartIds (ops.foldl (fun c op => add_to_cart c op.1 op.2) c)).Nodup := by
  induction ops with
  | nil => intro c h; exact h
  | cons op rest ih =>
    intro c h
    exact ih _ (add_to_cart_nodup c op.1 op.2 h)

theorem runAdds_mem_aux (pid : String) (ops : List (Product × Nat)) :
    ∀ c : List CartItem,
      (pid ∈ cartIds (ops.foldl (fun c op => add_to_cart c op.1 op.2) c)
        ↔ pid ∈ cartIds c ∨ pid ∈ ops.map (fun op => op.1.id)) := by
  induction ops with
  | nil => intro c; simp
  | cons op rest ih =>
    intro c
    simp only [List.foldl_cons, List.map_cons, List.mem_cons]
    rw [ih, add_to_cart_mem_ids]
    tauto

/-- Claim C3: for every sequence of add-to-cart operations by one user,
each adding some product with a positive quantity, the resulting cart has
exactly one line per distinct product id (the line ids are duplicate-free
and an id appears iff it was added), and the quantity on each line equals
the sum of the quantities added for that product id across the sequence. -/
theorem C3_cart_unique_sums (ops : List (Product × Nat))
    (hpos : ∀ op ∈ ops, 0 < op.2) :
    (cartIds (runAdds ops)).Nodup ∧
    (∀ pid, pid ∈ cartIds (runAdds ops) ↔ pid ∈ ops.map (fun op => op.1.id)) ∧
    (∀ it ∈ runAdds ops, it.quantity = opsSum it.product.id ops) := by
  have hnd : (cartIds (runAdds ops)).Nodup :=
    runAdds_nodup_aux ops [] (by simp [cartIds])
  refine ⟨hnd, ?_, ?_⟩
  · intro pid
    rw [runAdds, runAdds_mem_aux]
    simp [cartIds]
  · intro it hit
    have h1 : qsum it.product.id (runAdds ops) = it.quantity :=
      qsum_line _ it hnd hit
    have h2 : qsum it.product.id (runAdds ops) = opsSum it.product.id ops := by
      rw [runAdds, runAdds_qsum_aux]
      simp [qsum]
    omega

/-- Witness for C3 at a concrete operation sequence. -/
theorem C3_cart_unique_sums_witness :
    (∀ op ∈ [((⟨"1", "a", ""⟩ : Product), 2), (⟨"2", "b", ""⟩, 1), (⟨"1", "a", ""⟩, 3)], 0 < op.2) ∧
    ((cartIds (runAdds [((⟨"1", "a", ""⟩ : Product), 2), (⟨"2", "b", ""⟩, 1), (⟨"1", "a", ""⟩, 3)])).Nodup ∧
     (∀ pid, pid ∈ cartIds (runAdds [((⟨"1", "a", ""⟩ : Product), 2), (⟨"2", "b", ""⟩, 1), (⟨"1", "a", ""⟩, 3)])
        ↔ pid ∈ [((⟨"1", "a", ""⟩ : Product), 2), (⟨"2", "b", ""⟩, 1), (⟨"1", "a", ""⟩, 3)].map (fun op => op.1.id)) ∧
     (∀ it ∈ runAdds [((⟨"1", "a", ""⟩ : Product), 2), (⟨"2", "b", ""⟩, 1), (⟨"1", "a", ""⟩, 3)],
        it.quantity = opsSum it.product.id [((⟨"1", "a", ""⟩ : Product), 2), (⟨"2", "b", ""⟩, 1), (⟨"1", "a", ""⟩, 3)])) :=
  ⟨by decide, C3_cart_unique_sums _ (by decide)⟩

/-- Concrete catalog products (first two rows of `config.py` `PRODUCTS`;
the fields irrelevant to the claims are dropped as in the embedding). -/
def product1 : Product := ⟨"1", "Классический круассан", "75 г"⟩

/-- Second concrete catalog product from `config.py`. -/
def product2 : Product := ⟨"2", "Миндальный круассан", "146 г"⟩

/-- Counterexample to claim C4 as stated. The claim says that after an
add-to-cart operation for product P the editing index equals the index of
the line affected by the operation, in particular the index of P's
existing line when P was already in the cart. At the concrete cart
`[product1 x1, product2 x1]`, adding `product1` again affects the line at
index 0 (its quantity becomes 2), yet the code
(`self.current_editing[user_id] = len(cart) - 1`) sets the cursor to 1. -/
theorem C4_counterexample :
    add_and_cursor [⟨product1, 1⟩, ⟨product2, 1⟩] product1 1
      = ([⟨product1, 2⟩, ⟨product2, 1⟩], 1) ∧
    (add_and_cursor [⟨product1, 1⟩, ⟨product2, 1⟩] product1 1).1.head? =
      some ⟨product1, 2⟩ ∧
    (1 : Nat) ≠ 0 := by
  decide

/-- Amended claim C4: after every add-to-cart operation the editing index
equals `len(cart) - 1`, the index of the last line, unconditionally; this
coincides with the index of the affected line when the product was newly
appended (the new last line carries the added product and quantity), but
when the product already had a line at an earlier position the cursor
points at the last line, not at that line. -/
theorem C4_cursor_always_last (cart : List CartItem) (p : Product) (q : Nat)
    (hq : 0 < q) :
    (add_and_cursor cart p q).2 = (add_and_cursor cart p q).1.length - 1 ∧
    (p.id ∉ cartIds cart →
      (add_and_cursor cart p q).1 = cart ++ [⟨p, q⟩] ∧
      (add_and_cursor cart p q).1.getLast? = some ⟨p, q⟩ ∧
      (add_and_cursor cart p q).2 = cart.length) := by
  refine ⟨rfl, ?_⟩
  intro hnm
  have happ : add_to_cart cart p q = cart ++ [⟨p, q⟩] := by
    induction cart with
    | nil => simp [add_to_cart]
    | cons it rest ih =>
      simp only [cartIds, List.map_cons, List.mem_cons] at hnm
      push_neg at hnm
      have h1 : ¬ it.product.id = p.id := fun hh => hnm.1 hh.symm
      simp only [add_to_cart, if_neg h1, List.cons_append, List.cons.injEq, true_and]
      exact ih (by simpa [cartIds] using hnm.2)
  refine ⟨by simp [add_and_cursor, happ], ?_, ?_⟩
  · simp [add_and_cursor, happ, List.getLast?_concat]
  · simp [add_and_cursor, happ]

/-- Witness for the amended C4 at a concrete input: adding a product that
is not yet in the cart appends it and puts the cursor on it. -/
theorem C4_cursor_always_last_witness :
    ((0 : Nat) < 3 ∧ product2.id ∉ cartIds [⟨product1, 1⟩]) ∧
    ((add_and_cursor [⟨product1, 1⟩] product2 3).2
        = (add_and_cursor [⟨product1, 1⟩] product2 3).1.length - 1 ∧
      (add_and_cursor [⟨product1, 1⟩] product2 3).1
        = [⟨product1, 1⟩] ++ [⟨product2, 3⟩] ∧
      (add_and_cursor [⟨product1, 1⟩] product2 3).1.getLast? = some ⟨product2, 3⟩ ∧
      (add_and_cursor [⟨product1, 1⟩] product2 3).2
        = ([⟨product1, 1⟩] : List CartItem).length) :=
  ⟨⟨by decide, by decide⟩,
    ⟨(C4_cursor_always_last [⟨product1, 1⟩] product2 3 (by decide)).1,
     (C4_cursor_always_last [⟨product1, 1⟩] product2 3 (by decide)).2 (by decide)⟩⟩

/-- Claim C7: removing the line at a valid cursor position leaves the
cursor either unset — exactly when the cart became empty, the cart's item
list then being cleared — or equal to `min(old_index, new_length - 1)`,
which lies within `[0, new_length - 1]`. -/
theorem C7_remove_clamps_cursor (cart : List CartItem) (idx : Nat)
    (h : idx < cart.length) :
    (remove_item cart idx).1.length = cart.length - 1 ∧
    ((remove_item cart idx).1 = [] → (remove_item cart idx).2 = none) ∧
    ((remove_item cart idx).1 ≠ [] →
      (remove_item cart idx).2 = some (min idx ((remove_item cart idx).1.length - 1)) ∧
      min idx ((remove_item cart idx).1.length - 1) < (remove_item cart idx).1.length) := by
  have hlen : (cart.eraseIdx idx).length = cart.length - 1 :=
    List.length_eraseIdx_of_lt h
  by_cases he : (cart.eraseIdx idx).isEmpty
  · simp only [remove_item, if_pos h, if_pos he]
    refine ⟨hlen, fun _ => by simp, fun hne => absurd (List.isEmpty_iff.mp he) hne⟩
  · simp only [remove_item, if_pos h, if_neg he]
    refine ⟨hlen, fun hnil => absurd (List.isEmpty_iff.mpr hnil) he,
      fun _ => ⟨by simp, ?_⟩⟩
    have hpos : 0 < (cart.eraseIdx idx).length := by
      cases hh : cart.eraseIdx idx with
      | nil => exact absurd (List.isEmpty_iff.mpr hh) he
      | cons a l => simp [hh]
    omega

/-- Witness for C7 at a concrete input: removing index 1 from a two-line
cart leaves one line and clamps the cursor to 0. -/
theorem C7_remove_clamps_cursor_witness :
    (1 < List.length [⟨product1, 1⟩, (⟨product2, 2⟩ : CartItem)]) ∧
    ((remove_item [⟨product1, 1⟩, ⟨product2, 2⟩] 1).1.length
        = List.length [⟨product1, 1⟩, (⟨product2, 2⟩ : CartItem)] - 1 ∧
      ((remove_item [⟨product1, 1⟩, ⟨product2, 2⟩] 1).1 = [] →
        (remove_item [⟨product1, 1⟩, ⟨product2, 2⟩] 1).2 = none) ∧
      ((remove_item [⟨product1, 1⟩, ⟨product2, 2⟩] 1).1 ≠ [] →
        (remove_item [⟨product1, 1⟩, ⟨product2, 2⟩] 1).2
          = some (min 1 ((remove_item [⟨product1, 1⟩, ⟨product2, 2⟩] 1).1.length - 1)) ∧
        min 1 ((remove_item [⟨product1, 1⟩, ⟨product2, 2⟩] 1).1.length - 1)
          < (remove_item [⟨product1, 1⟩, ⟨product2, 2⟩] 1).1.length)) :=
  ⟨by decide, C7_remove_clamps_cursor [⟨product1, 1⟩, ⟨product2, 2⟩] 1 (by decide)⟩

/-- Order status as stored in the `orders` table (`db.py`): the schema
default is `'active'` and `cancel_order` writes `'cancelled'`. -/
inductive OrderStatus
| active
| cancelled
deriving DecidableEq, Repr

/-- One element of an order's `order_data['items']` as read back by the
reporting query (`handlers.py` `admin_stats`): the stored product id and
quantity, both cast to integers by the SQL (`::int`). -/
structure OrderItem where
  product_id : Int
  quantity : Int
deriving DecidableEq, Repr

/-- A row of the `orders` table (`db.py` `create_tables`), with the parts
of `order_data` that the handlers read (organization, contact person,
items). -/
structure OrderRec where
  order_id : Nat
  user_id : Nat
  organization : String
  contact_person : String
  items : List OrderItem
  delivery_date : String
  delivery_time : String
  status : OrderStatus
deriving DecidableEq, Repr

/-- The row predicate of the UPDATE in `Database.cancel_order` (`db.py`
lines 123-127): `WHERE order_id = %s AND status = 'active'`. -/
def cancelHit (oid : Nat) (o : OrderRec) : Bool :=
  decide (o.order_id = oid ∧ o.status = OrderStatus.active)

/-- `Database.cancel_order` (`db.py` lines 119-136): set
`status = 'cancelled'` on every row matching the predicate, and return
`rows_affected > 0` together with the updated table. -/
def cancel_order (ledger : List OrderRec) (oid : Nat) : Bool × List OrderRec :=
  (decide (0 < ledger.countP (cancelHit oid)),
   ledger.map (fun o =>
     if cancelHit oid o then { o with status := OrderStatus.cancelled } else o))

/-- The per-user `last_orders[user_id]` record written on commit
(`handlers.py` lines 344-349): order id, rendered order text and the
computed delivery datetime (seconds; the admin message ids play no role
in the claims and are omitted). -/
structure LastOrder where
  order_id : Nat
  order_text : String
  delivery_datetime : Int
deriving DecidableEq, Repr

/-- The state touched by `BotHandlers.cancel_last_order` for one user:
the `last_orders` entry and the orders table. -/
structure CancelState where
  last_order : Option LastOrder
  ledger : List OrderRec
deriving DecidableEq, Repr

/-- The user-visible outcome of `BotHandlers.cancel_last_order`. -/
inductive CancelOutcome
| noActiveOrders
| tooLate
| cancelFailed
| cancelledOk
deriving DecidableEq, Repr

/-- Result of a cancel attempt: outcome, new state, and the list of order
ids passed to `db.cancel_order` during the attempt. -/
structure CancelResult where
  outcome : CancelOutcome
  state : CancelState
  dbCancelCalls : List Nat
deriving DecidableEq, Repr

/-- `BotHandlers.cancel_last_order` (`handlers.py` lines 393-446, the
`bot.py` version differing only in notification fan-out): no
`last_orders` entry means nothing to cancel; when
`delivery_datetime - now <= timedelta(hours=6)` the handler replies
"too late to cancel" and returns before any database call; otherwise
`db.cancel_order` decides success (entry deleted) or failure (entry
kept). -/
def cancel_last_order (now : Int) (st : CancelState) : CancelResult :=
  match st.last_order with
  | none => ⟨.noActiveOrders, st, []⟩
  | some od =>
    if od.delivery_datetime - now ≤ 6 * 3600 then ⟨.tooLate, st, []⟩
    else
      let r := cancel_order st.ledger od.order_id
      if r.1 then ⟨.cancelledOk, ⟨none, r.2⟩, [od.order_id]⟩
      else ⟨.cancelFailed, ⟨st.last_order, r.2⟩, [od.order_id]⟩

/-- Claim C1: a cancel attempt at a moment `now` with
`delivery_datetime - now <= 6` hours always fails: the handler answers
with the "too late to cancel" message, `db.cancel_order` is never
invoked, the whole state — in particular every order's status, so an
active order stays active — is unchanged, and the `last_orders` entry is
retained. -/
theorem C1_cancel_too_late (now : Int) (st : CancelState) (od : LastOrder)
    (h1 : st.last_order = some od)
    (h2 : od.delivery_datetime - now ≤ 6 * 3600) :
    (cancel_last_order now st).outcome = CancelOutcome.tooLate ∧
    (cancel_last_order now st).state = st ∧
    (cancel_last_order now st).dbCancelCalls = [] := by
  simp only [cancel_last_order, h1]
  rw [if_pos h2]
  exact ⟨rfl, rfl, rfl⟩

/-- Witness for C1 at a concrete state: an order due in exactly six hours
cannot be cancelled and everything is left in place. -/
theorem C1_cancel_too_late_witness :
    ((⟨some ⟨1, "t", 21600⟩, [⟨1, 7, "o", "c", [], "d", "t", .active⟩]⟩ :
        CancelState).last_order = some ⟨1, "t", 21600⟩ ∧
      (21600 : Int) - 0 ≤ 6 * 3600) ∧
    ((cancel_last_order 0 ⟨some ⟨1, "t", 21600⟩,
        [⟨1, 7, "o", "c", [], "d", "t", .active⟩]⟩).outcome
        = CancelOutcome.tooLate ∧
      (cancel_last_order 0 ⟨some ⟨1, "t", 21600⟩,
        [⟨1, 7, "o", "c", [], "d", "t", .active⟩]⟩).state
        = ⟨some ⟨1, "t", 21600⟩, [⟨1, 7, "o", "c", [], "d", "t", .active⟩]⟩ ∧
      (cancel_last_order 0 ⟨some ⟨1, "t", 21600⟩,
        [⟨1, 7, "o", "c", [], "d", "t", .active⟩]⟩).dbCancelCalls = []) :=
  ⟨⟨rfl, by decide⟩,
    C1_cancel_too_late 0 _ ⟨1, "t", 21600⟩ rfl (by decide)⟩

theorem cancel_order_cancels (ledger : List OrderRec) (oid : Nat) :
    ∀ o ∈ (cancel_order ledger oid).2, o.order_id = oid →
      o.status = OrderStatus.cancelled := by
  intro o ho hid
  rcases List.mem_map.mp ho with ⟨o₀, _, rfl⟩
  by_cases hh : cancelHit oid o₀
  · simp [hh]
  · rw [if_neg hh] at hid ⊢
    simp only [cancelHit, decide_eq_true_eq] at hh
    cases hst : o₀.status with
    | active => exact absurd ⟨hid, hst⟩ hh
    | cancelled => rfl

theorem cancel_order_id_eq (ledger : List OrderRec) (oid : Nat) :
    ∀ o ∈ (cancel_order ledger oid).2, ∃ o₀ ∈ ledger,
      o.order_id = o₀.order_id := by
  intro o ho
  rcases List.mem_map.mp ho with ⟨o₀, h₀, rfl⟩
  refine ⟨o₀, h₀, ?_⟩
  by_cases hh : cancelHit oid o₀ <;> simp [hh]

theorem cancel_order_already_cancelled (ledger : List OrderRec) (oid : Nat)
    (h : ∀ o ∈ ledger, o.order_id = oid → o.status = OrderStatus.cancelled) :
    cancel_order ledger oid = (false, ledger) := by
  have hz : ledger.countP (cancelHit oid) = 0 := by
    rw [List.countP_eq_zero]
    intro o ho
    simp only [cancelHit, decide_eq_true_eq, not_and]
    intro hid hst
    rw [h o ho hid] at hst
    cases hst
  have hmap : ledger.map (fun o =>
      if cancelHit oid o then { o with status := OrderStatus.cancelled } else o)
      = ledger := by
    have hcg : ∀ o ∈ ledger,
        (if cancelHit oid o then { o with status := OrderStatus.cancelled } else o)
          = id o := by
      intro o ho
      have hno : ¬ cancelHit oid o = true := by
        simpa using List.countP_eq_zero.mp hz o ho
      simp [hno]
    rw [List.map_congr_left hcg, List.map_id]
  simp [cancel_order, hz, hmap]

/-- Claim C2: cancellation succeeds at most once. Starting from a
`last_orders` handle with more than six hours left whose order id names
only active rows (at least one), the handler's cancel succeeds — the
ledger update being conditional on `status = 'active'` — and marks every
row of that order id cancelled; any subsequent `db.cancel_order` on the
same order id affects zero rows, returns failure and leaves the table,
hence the `'cancelled'` status, unchanged. -/
theorem C2_cancel_once (now : Int) (st : CancelState) (od : LastOrder)
    (h1 : st.last_order = some od)
    (h2 : 6 * 3600 < od.delivery_datetime - now)
    (h3 : ∀ o ∈ st.ledger, o.order_id = od.order_id → o.status = OrderStatus.active)
    (h4 : ∃ o ∈ st.ledger, o.order_id = od.order_id) :
    (cancel_last_order now st).outcome = CancelOutcome.cancelledOk ∧
    (∀ o ∈ (cancel_last_order now st).state.ledger,
      o.order_id = od.order_id → o.status = OrderStatus.cancelled) ∧
    cancel_order (cancel_last_order now st).state.ledger od.order_id
      = (false, (cancel_last_order now st).state.ledger) := by
  have hnotle : ¬ od.delivery_datetime - now ≤ 6 * 3600 := by omega
  have hpos : 0 < st.ledger.countP (cancelHit od.order_id) := by
    rw [List.countP_pos_iff]
    rcases h4 with ⟨o, ho, hid⟩
    exact ⟨o, ho, by simp [cancelHit, hid, h3 o ho hid]⟩
  have hfst : (cancel_order st.ledger od.order_id).1 = true := by
    simp [cancel_order, hpos]
  have hstate : (cancel_last_order now st).state.ledger
      = (cancel_order st.ledger od.order_id).2 := by
    simp only [cancel_last_order, h1]
    rw [if_neg hnotle]
    simp [hfst]
  have houtcome : (cancel_last_order now st).outcome = CancelOutcome.cancelledOk := by
    simp only [cancel_last_order, h1]
    rw [if_neg hnotle]
    simp [hfst]
  refine ⟨houtcome, ?_, ?_⟩
  · rw [hstate]
    exact cancel_order_cancels st.ledger od.order_id
  · rw [hstate]
    exact cancel_order_already_cancelled _ _
      (cancel_order_cancels st.ledger od.order_id)

/-- Witness for C2 at a concrete state: one active order, more than six
hours left; the first cancel succeeds, the second fails. -/
theorem C2_cancel_once_witness :
    ((⟨some ⟨1, "t", 30000⟩, [⟨1, 7, "o", "c", [], "d", "t", .active⟩]⟩ :
        CancelState).last_order = some ⟨1, "t", 30000⟩ ∧
      (6 * 3600 : Int) < 30000 - 0) ∧
    ((cancel_last_order 0 ⟨some ⟨1, "t", 30000⟩,
        [⟨1, 7, "o", "c", [], "d", "t", .active⟩]⟩).outcome
        = CancelOutcome.cancelledOk ∧
      (∀ o ∈ (cancel_last_order 0 ⟨some ⟨1, "t", 30000⟩,
          [⟨1, 7, "o", "c", [], "d", "t", .active⟩]⟩).state.ledger,
        o.order_id = 1 → o.status = OrderStatus.cancelled) ∧
      cancel_order (cancel_last_order 0 ⟨some ⟨1, "t", 30000⟩,
          [⟨1, 7, "o", "c", [], "d", "t", .active⟩]⟩).state.ledger 1
        = (false, (cancel_last_order 0 ⟨some ⟨1, "t", 30000⟩,
            [⟨1, 7, "o", "c", [], "d", "t", .active⟩]⟩).state.ledger)) :=
  ⟨⟨rfl, by decide⟩,
    C2_cancel_once 0 _ ⟨1, "t", 30000⟩ rfl (by decide)
      (by decide) ⟨⟨1, 7, "o", "c", [], "d", "t", .active⟩, by decide⟩⟩

/-- The per-user session state read and written by
`BotHandlers.process_delivery_time` (`handlers.py` lines 294-391):
`selected_dates.get(user_id)`, `user_carts[user_id]["items"]`,
`last_orders[user_id]` and the orders table. -/
structure SessionState where
  selected_date : Option String
  cart : List CartItem
  last_order : Option LastOrder
  ledger : List OrderRec
deriving Repr

/-- The user-visible outcome of `process_delivery_time`. -/
inductive CommitOutcome
| dateNotSelected
| notRegistered
| emptyCart
| saveFailed
| committed
deriving DecidableEq, Repr

/-- The fresh `order_id` produced by the `RETURNING order_id` of
`Database.save_order` (the `orders` table uses a SERIAL primary key). -/
def next_order_id (ledger : List OrderRec) : Nat := ledger.length + 1

/-- The `order_data['items']` snapshot written by `process_delivery_time`
(line 330), as the reporting SQL later reads it back: product id and
quantity cast to integers. -/
def snapshotItems (cart : List CartItem) : List OrderItem :=
  cart.map (fun it => ⟨(it.product.id.toInt?).getD 0, (it.quantity : Int)⟩)

/-- `BotHandlers.process_delivery_time` (`handlers.py` lines 294-391).
Check order: selected date, registration, non-empty cart; then the save.
`client` is what `db.get_client` returns (`none` standing for the falsy
organization of an unregistered user), `saveOk` is the fate of the
`db.save_order` INSERT (`false` = exception raised, caught at lines
339-342), and `parse_dt` stands for the `datetime.strptime` combination
of the date with the interval's start time. On success the handler
records the `last_orders` handle, notifies admins, clears the cart and
pops the selected date; on any earlier exit nothing is mutated. -/
def process_delivery_time (client : Option (String × String)) (saveOk : Bool)
    (parse_dt : String → String → Int) (time_str : String) (user_id : Nat)
    (st : SessionState) : CommitOutcome × SessionState :=
  match st.selected_date with
  | none => (.dateNotSelected, st)
  | some date_str =>
    match client with
    | none => (.notRegistered, st)
    | some (organization, contact_person) =>
      if st.cart = [] then (.emptyCart, st)
      else
        let delivery_datetime := parse_dt date_str time_str
        if saveOk then
          let oid := next_order_id st.ledger
          let newOrder : OrderRec :=
            ⟨oid, user_id, organization, contact_person, snapshotItems st.cart,
              date_str, time_str, .active⟩
          (.committed,
            ⟨none, [], some ⟨oid, "", delivery_datetime⟩, st.ledger ++ [newOrder]⟩)
        else (.saveFailed, st)

/-- Claim C5: when the preconditions of a commit hold (a date is
selected, the user is registered, the cart is non-empty) but the ledger
write fails, the user sees the retryable save-error message and the
session state is preserved unchanged — the cart keeps all its lines and
the selected date is not cleared; and with the same preconditions a
successful persist is exactly the case that clears the cart and the
selected date. -/
theorem C5_save_failure_preserves (client : Option (String × String))
    (parse_dt : String → String → Int) (time_str : String) (user_id : Nat)
    (st : SessionState) (d : String) (cl : String × String)
    (hd : st.selected_date = some d) (hc : client = some cl)
    (hne : st.cart ≠ []) :
    process_delivery_time client false parse_dt time_str user_id st
      = (CommitOutcome.saveFailed, st) ∧
    (process_delivery_time client true parse_dt time_str user_id st).1
      = CommitOutcome.committed ∧
    (process_delivery_time client true parse_dt time_str user_id st).2.cart = [] ∧
    (process_delivery_time client true parse_dt time_str user_id st).2.selected_date
      = none := by
  subst hc
  refine ⟨?_, ?_, ?_, ?_⟩ <;>
    simp [process_delivery_time, hd, hne]

/-- Witness for C5 at a concrete session: a failed save returns the error
and preserves the cart and date; a successful save clears both. -/
theorem C5_save_failure_preserves_witness :
    ((⟨some "2025-03-10", [⟨product1, 2⟩], none, []⟩ :
        SessionState).selected_date = some "2025-03-10" ∧
      (some ("o", "c") : Option (String × String)) = some ("o", "c") ∧
      (⟨some "2025-03-10", [⟨product1, 2⟩], none, []⟩ :
        SessionState).cart ≠ []) ∧
    (process_delivery_time (some ("o", "c")) false (fun _ _ => 0) "6:00 - 8:00" 7
        ⟨some "2025-03-10", [⟨product1, 2⟩], none, []⟩
      = (CommitOutcome.saveFailed,
          ⟨some "2025-03-10", [⟨product1, 2⟩], none, []⟩) ∧
      (process_delivery_time (some ("o", "c")) true (fun _ _ => 0) "6:00 - 8:00" 7
          ⟨some "2025-03-10", [⟨product1, 2⟩], none, []⟩).1
        = CommitOutcome.committed ∧
      (process_delivery_time (some ("o", "c")) true (fun _ _ => 0) "6:00 - 8:00" 7
          ⟨some "2025-03-10", [⟨product1, 2⟩], none, []⟩).2.cart = [] ∧
      (process_delivery_time (some ("o", "c")) true (fun _ _ => 0) "6:00 - 8:00" 7
          ⟨some "2025-03-10", [⟨product1, 2⟩], none, []⟩).2.selected_date = none) :=
  ⟨⟨rfl, rfl, by decide⟩,
    C5_save_failure_preserves (some ("o", "c")) (fun _ _ => 0) "6:00 - 8:00" 7
      ⟨some "2025-03-10", [⟨product1, 2⟩], none, []⟩ "2025-03-10" ("o", "c")
      rfl rfl (by decide)⟩

/-- Claim C6: a delivery-time selection made while no delivery date is
recorded for the user aborts with the "date not selected" answer before
anything else happens: the whole session state — cart, pending selection,
`last_orders` handle and the orders table — is returned unchanged, so no
order is written to the ledger. -/
theorem C6_no_date_aborts (client : Option (String × String)) (saveOk : Bool)
    (parse_dt : String → String → Int) (time_str : String) (user_id : Nat)
    (st : SessionState) (h : st.selected_date = none) :
    process_delivery_time client saveOk parse_dt time_str user_id st
      = (CommitOutcome.dateNotSelected, st) := by
  simp [process_delivery_time, h]

/-- Witness for C6 at a concrete session: selecting the interval
`9:00 - 11:00` with no date recorded aborts and changes nothing. -/
theorem C6_no_date_aborts_witness :
    ((⟨none, [⟨product1, 2⟩], none, []⟩ : SessionState).selected_date = none) ∧
    process_delivery_time (some ("o", "c")) true (fun _ _ => 0) "9:00 - 11:00" 7
        ⟨none, [⟨product1, 2⟩], none, []⟩
      = (CommitOutcome.dateNotSelected, ⟨none, [⟨product1, 2⟩], none, []⟩) :=
  ⟨rfl,
    C6_no_date_aborts (some ("o", "c")) true (fun _ _ => 0) "9:00 - 11:00" 7
      ⟨none, [⟨product1, 2⟩], none, []⟩ rfl⟩

/-- The row filter of the reporting SQL in `BotHandlers.admin_stats`
(`handlers.py` line 627): `delivery_date BETWEEN %s AND %s AND
status = 'active'` (`delivery_date` is TEXT, so BETWEEN is the
lexicographic comparison, which on ISO dates is date order). -/
def activeInRange (s e : String) (o : OrderRec) : Bool :=
  decide (s ≤ o.delivery_date) && decide (o.delivery_date ≤ e) &&
    decide (o.status = OrderStatus.active)

/-- The orders contributing rows of the reporting join: the SQL cross
join `FROM orders, jsonb_array_elements(order_data->'items')` drops any
order whose items array is empty, so those contribute nothing. -/
def statOrders (ledger : List OrderRec) (s e : String) : List OrderRec :=
  ledger.filter (fun o => activeInRange s e o && !o.items.isEmpty)

/-- The GROUP BY key of the reporting SQL (line 628):
`delivery_date, organization, contact_person`. -/
def orderKey (o : OrderRec) : String × String × String :=
  (o.delivery_date, o.organization, o.contact_person)

/-- The distinct group keys produced by GROUP BY (group order is
unspecified in SQL and re-sorted by the Python; the claims do not
concern row order). -/
def groupKeys (l : List OrderRec) : List (String × String × String) :=
  (l.map orderKey).dedup

/-- The `jsonb_agg` item list of one group: all items of the orders
sharing the key. -/
def groupItems (l : List OrderRec) (k : String × String × String) :
    List OrderItem :=
  (l.filter (fun o => decide (orderKey o = k))).flatMap (fun o => o.items)

/-- The per-row quantity vector built at `handlers.py` lines 661-665:
`quantities[prod_id - 1] += quantity` for items whose
`product_id - 1` lies in `[0, 13)` (Python integer arithmetic, hence
`Int` subtraction). -/
def qvec (items : List OrderItem) : Fin 13 → Int :=
  fun i => ((items.filter
    (fun it => decide (it.product_id - 1 = (i.val : Int)))).map
      (fun it => it.quantity)).sum

/-- The written report rows: one per group key, carrying the group's
quantity vector. -/
def statRows (ledger : List OrderRec) (s e : String) :
    List ((String × String × String) × (Fin 13 → Int)) :=
  (groupKeys (statOrders ledger s e)).map
    (fun k => (k, qvec (groupItems (statOrders ledger s e) k)))

/-- The trailing totals row (`handlers.py` lines 655, 675-678): the
column-wise sum of all written rows. -/
def statTotals (ledger : List OrderRec) (s e : String) : Fin 13 → Int :=
  ((statRows ledger s e).map (fun r => r.2)).sum

/-- The outcome of `/stats`: the "no active orders for this period"
message (lines 638-639) versus the produced CSV (rows plus totals). -/
inductive StatsOutcome
| noOrders
| report (rows : List ((String × String × String) × (Fin 13 → Int)))
    (totals : Fin 13 → Int)

/-- The aggregation the body of `BotHandlers.admin_stats`
(`handlers.py` lines 613-678) is written to compute: empty SQL result —
i.e. no active in-range order with a non-empty items array — yields the
"no orders" message (lines 638-639), otherwise the report. As
`admin_stats_handler` below records, this computation is unreachable in
the module as written, because line 615 references the unimported name
`extras`. -/
def admin_stats (ledger : List OrderRec) (s e : String) : StatsOutcome :=
  if statOrders ledger s e = [] then .noOrders
  else .report (statRows ledger s e) (statTotals ledger s e)

/-- Whether the name `extras` is bound in the `handlers.py` module: its
imports (lines 2-13) never import `psycopg2.extras` (only `db.py` does,
and `from db import Database` does not carry it over), so the reference
`extras.DictCursor` at line 615 raises `NameError`. -/
def handlersImportsExtras : Bool := false

/-- What `/stats` actually replies with: the fetch-error message of the
`except` branch (lines 631-634), or — were the cursor construction to
succeed — one of the outcomes of the aggregation. -/
inductive StatsReply
| fetchError
| ok (res : StatsOutcome)

/-- `BotHandlers.admin_stats` as executed (`handlers.py` lines 613-639):
the `with conn.cursor(cursor_factory=extras.DictCursor)` at line 615 is
evaluated inside the `try:` of line 614; since `handlers.py` never binds
`extras`, the lookup raises `NameError`, the `except Exception` at line
631 catches it, the handler replies "Ошибка при получении данных.
Попробуйте позже." and returns — on every invocation, whatever the
ledger and range. -/
def admin_stats_handler (ledger : List OrderRec) (s e : String) : StatsReply :=
  if handlersImportsExtras then .ok (admin_stats ledger s e)
  else .fetchError

theorem sum_map_split {κ M : Type} [AddCommMonoid M] (ks : List κ)
    (f g : κ → M) :
    (ks.map (fun k => f k + g k)).sum = (ks.map f).sum + (ks.map g).sum := by
  induction ks with
  | nil => simp
  | cons k t ih =>
    simp only [List.map_cons, List.sum_cons, ih]
    abel

theorem sum_map_ite_single {κ M : Type} [DecidableEq κ] [AddCommMonoid M]
    (ks : List κ) (a : κ) (v : M) (hnd : ks.Nodup) (ha : a ∈ ks) :
    (ks.map (fun k => if a = k then v else 0)).sum = v := by
  induction ks with
  | nil => cases ha
  | cons k t ih =>
    rcases List.nodup_cons.mp hnd with ⟨hk, hnd'⟩
    by_cases hak : a = k
    · subst hak
      simp only [List.map_cons, if_pos rfl, List.sum_cons]
      have hz : ∀ x ∈ t.map (fun k => if a = k then v else 0), x = 0 := by
        intro x hx
        rcases List.mem_map.mp hx with ⟨k', hk', rfl⟩
        rw [if_neg]
        intro hh
        exact hk (hh ▸ hk')
      rw [List.sum_eq_zero hz, add_zero]
      simp
    · have ha' : a ∈ t := by
        rcases List.mem_cons.mp ha with h | h
        · exact absurd h hak
        · exact h
      simp only [List.map_cons, if_neg hak, List.sum_cons, zero_add]
      exact ih hnd' ha'

theorem sum_fibers {α κ M : Type} [DecidableEq κ] [AddCommMonoid M]
    (key : α → κ) (f : α → M) (ks : List κ) (l : List α)
    (hnd : ks.Nodup) (hsub : ∀ x ∈ l, key x ∈ ks) :
    (ks.map (fun k =>
      ((l.filter (fun x => decide (key x = k))).map f).sum)).sum
      = (l.map f).sum := by
  induction l with
  | nil => simp
  | cons x t ih =>
    have hx : key x ∈ ks := hsub x (List.mem_cons_self x t)
    have hsub' : ∀ y ∈ t, key y ∈ ks :=
      fun y hy => hsub y (List.mem_cons_of_mem x hy)
    have hrw : (ks.map (fun k =>
        (((x :: t).filter (fun y => decide (key y = k))).map f).sum))
        = ks.map (fun k => (if key x = k then f x else 0)
            + ((t.filter (fun y => decide (key y = k))).map f).sum) := by
      apply List.map_congr_left
      intro k _
      by_cases hk : key x = k
      · simp [List.filter_cons, hk]
      · simp [List.filter_cons, hk]
    rw [hrw, sum_map_split, sum_map_ite_single ks (key x) (f x) hnd hx, ih hsub']
    simp

theorem qvec_append (xs ys : List OrderItem) :
    qvec (xs ++ ys) = qvec xs + qvec ys := by
  funext i
  simp [qvec, List.filter_append]

theorem qvec_flatMap (l : List OrderRec) :
    qvec (l.flatMap (fun o => o.items))
      = (l.map (fun o => qvec o.items)).sum := by
  induction l with
  | nil =>
    funext i
    simp [qvec]
  | cons o t ih =>
    simp only [List.flatMap_cons, List.map_cons, List.sum_cons, qvec_append, ih]

theorem statOrders_cons_cancelled (ledger : List OrderRec) (s e : String)
    (o : OrderRec) (h : o.status = OrderStatus.cancelled) :
    statOrders (o :: ledger) s e = statOrders ledger s e := by
  have hno : (activeInRange s e o && !o.items.isEmpty) = false := by
    simp [activeInRange, h]
  simp [statOrders, List.filter_cons, hno]

/-- The intended aggregation of `admin_stats` — the computation its body
is written to perform, never reached because of the unbound `extras` —
does sum quantities over exactly the orders whose delivery date lies in
`[start, end]` and whose status is `'active'`: a ledger with no active
order in range yields the "no orders for this period" outcome rather
than an error; prepending a cancelled order changes neither the rows nor
the totals; the totals row is the sum of the per-order quantity vectors
of the contributing orders; and each group row's vector is the sum over
exactly the contributing orders with that (date, organization, contact)
key. -/
theorem aggregate_active_only_intended (ledger : List OrderRec) (s e : String) :
    ((∀ o ∈ ledger, activeInRange s e o = false) →
      admin_stats ledger s e = StatsOutcome.noOrders) ∧
    (∀ o : OrderRec, o.status = OrderStatus.cancelled →
      admin_stats (o :: ledger) s e = admin_stats ledger s e) ∧
    statTotals ledger s e
      = ((statOrders ledger s e).map (fun o => qvec o.items)).sum ∧
    (∀ k ∈ groupKeys (statOrders ledger s e),
      qvec (groupItems (statOrders ledger s e) k)
        = (((statOrders ledger s e).filter
            (fun o => decide (orderKey o = k))).map
              (fun o => qvec o.items)).sum) := by
  refine ⟨?_, ?_, ?_, ?_⟩
  · intro h
    have hso : statOrders ledger s e = [] := by
      rw [statOrders, List.filter_eq_nil_iff]
      intro o ho
      simp [h o ho]
    simp [admin_stats, hso]
  · intro o h
    have hso := statOrders_cons_cancelled ledger s e o h
    simp only [admin_stats, statRows, statTotals, hso]
  · have hnd : (groupKeys (statOrders ledger s e)).Nodup :=
      List.nodup_dedup _
    have hsub : ∀ o ∈ statOrders ledger s e,
        orderKey o ∈ groupKeys (statOrders ledger s e) := by
      intro o ho
      exact List.mem_dedup.mpr (List.mem_map_of_mem orderKey ho)
    have h1 : statTotals ledger s e
        = ((groupKeys (statOrders ledger s e)).map
            (fun k => qvec (groupItems (statOrders ledger s e) k))).sum := by
      simp only [statTotals, statRows, List.map_map]
      rfl
    rw [h1]
    have h2 : ((groupKeys (statOrders ledger s e)).map
        (fun k => qvec (groupItems (statOrders ledger s e) k)))
        = ((groupKeys (statOrders ledger s e)).map
            (fun k => (((statOrders ledger s e).filter
              (fun o => decide (orderKey o = k))).map
                (fun o => qvec o.items)).sum)) := by
      apply List.map_congr_left
      intro k _
      rw [groupItems, qvec_flatMap]
    rw [h2]
    exact sum_fibers orderKey (fun o => qvec o.items) _ _ hnd hsub
  · intro k _
    rw [groupItems, qvec_flatMap]

/-- Instantiation of the intended-aggregation theorem at a concrete
ledger, discharging its hypotheses there. -/
theorem aggregate_active_only_intended_inst :
    ((∀ o ∈ ([⟨1, 7, "o", "c", [⟨1, 2⟩], "2025-03-09", "t",
        .cancelled⟩] : List OrderRec),
      activeInRange "2025-03-10" "2025-03-12" o = false) →
      admin_stats [⟨1, 7, "o", "c", [⟨1, 2⟩], "2025-03-09", "t", .cancelled⟩]
        "2025-03-10" "2025-03-12" = StatsOutcome.noOrders) ∧
    (∀ o : OrderRec, o.status = OrderStatus.cancelled →
      admin_stats (o :: [⟨1, 7, "o", "c", [⟨1, 2⟩], "2025-03-09", "t",
          .cancelled⟩]) "2025-03-10" "2025-03-12"
        = admin_stats [⟨1, 7, "o", "c", [⟨1, 2⟩], "2025-03-09", "t",
            .cancelled⟩] "2025-03-10" "2025-03-12") ∧
    statTotals [⟨1, 7, "o", "c", [⟨1, 2⟩], "2025-03-09", "t", .cancelled⟩]
        "2025-03-10" "2025-03-12"
      = ((statOrders [⟨1, 7, "o", "c", [⟨1, 2⟩], "2025-03-09", "t",
          .cancelled⟩] "2025-03-10" "2025-03-12").map
            (fun o => qvec o.items)).sum ∧
    (∀ k ∈ groupKeys (statOrders [⟨1, 7, "o", "c", [⟨1, 2⟩], "2025-03-09",
        "t", .cancelled⟩] "2025-03-10" "2025-03-12"),
      qvec (groupItems (statOrders [⟨1, 7, "o", "c", [⟨1, 2⟩], "2025-03-09",
          "t", .cancelled⟩] "2025-03-10" "2025-03-12") k)
        = (((statOrders [⟨1, 7, "o", "c", [⟨1, 2⟩], "2025-03-09", "t",
            .cancelled⟩] "2025-03-10" "2025-03-12").filter
              (fun o => decide (orderKey o = k))).map
                (fun o => qvec o.items)).sum) :=
  aggregate_active_only_intended
    [⟨1, 7, "o", "c", [⟨1, 2⟩], "2025-03-09", "t", .cancelled⟩]
    "2025-03-10" "2025-03-12"

/-- Claim C8 (code_bug): the claim describes the aggregation the code
was written to perform — proved of the intended computation in
`aggregate_active_only_intended` — but the code fails it: `handlers.py`
never imports `extras`, so `extras.DictCursor` at line 615 raises
`NameError` inside the `try:` and every `/stats` invocation, in
particular one over a ledger with no active orders in the range, where
the claim promises the "no orders for this period" outcome rather than
an error, replies with the fetch-error message instead. -/
theorem C8_stats_always_fetch_error (ledger : List OrderRec) (s e : String) :
    handlersImportsExtras = false ∧
    admin_stats_handler ledger s e = StatsReply.fetchError ∧
    StatsReply.fetchError ≠ StatsReply.ok StatsOutcome.noOrders :=
  ⟨rfl, rfl, fun h => nomatch h⟩

/-- The whitespace character set of Python's `str.strip()` and of `\s`
in a `re` pattern on `str`: the ASCII whitespace characters plus the
Unicode whitespace code points. -/
def pySpace (c : Char) : Bool :=
  c = ' ' || c = '\t' || c = '\n' || c = '\r' ||
  c.toNat = 0x0b || c.toNat = 0x0c ||
  (0x1c ≤ c.toNat && c.toNat ≤ 0x1f) ||
  c.toNat = 0x85 || c.toNat = 0xa0 || c.toNat = 0x1680 ||
  (0x2000 ≤ c.toNat && c.toNat ≤ 0x200a) ||
  c.toNat = 0x2028 || c.toNat = 0x2029 || c.toNat = 0x202f ||
  c.toNat = 0x205f || c.toNat = 0x3000

/-- Python `str.strip()`: drop leading and trailing whitespace. -/
def pyStrip (s : String) : String :=
  ⟨((s.data.dropWhile pySpace).reverse.dropWhile pySpace).reverse⟩

/-- The character class of the validation regex
`^[А-Яа-яA-Za-z\s-]+$` (`handlers.py` lines 72 and 100): the Cyrillic
ranges А-Я (U+0410..U+042F) and а-я (U+0430..U+044F) — which exclude Ё
(U+0401) and ё (U+0451) — the Latin ranges, `\s`, and the hyphen. -/
def regexAllowed (c : Char) : Bool :=
  ('А' ≤ c && c ≤ 'Я') || ('а' ≤ c && c ≤ 'я') ||
  ('A' ≤ c && c ≤ 'Z') || ('a' ≤ c && c ≤ 'z') ||
  pySpace c || c = '-'

/-- `re.match(r'^[А-Яа-яA-Za-z\s-]+$', s)` as a Boolean: the whole
string is non-empty and consists of class characters (every character of
the class may repeat, and the `$`/trailing-newline nuance is moot since
`\n` is itself in the class). -/
def regexOk (s : String) : Bool :=
  !s.data.isEmpty && s.data.all regexAllowed

/-- The `ConversationHandler` states of the registration dialogue
(`config.py` `REGISTER_ORG, REGISTER_CONTACT` and
`ConversationHandler.END`). -/
inductive RegState
| registerOrg
| registerContact
| conversationEnd
deriving DecidableEq, Repr

/-- `BotHandlers.register_org` (`handlers.py` lines 61-87): strip the
message text; an empty or non-matching name re-prompts in the same state
with nothing stored, a valid name is stored in `user_data` and the
dialogue advances to the contact step. -/
def register_org (text : String) (stored : Option String) :
    RegState × Option String :=
  let org := pyStrip text
  if org = "" then (.registerOrg, stored)
  else if !(regexOk org) then (.registerOrg, stored)
  else (.registerContact, some org)

/-- The effect of `Database.add_client` on the `clients` table (`db.py`
lines 72-86): a plain INSERT; for a `user_id` already present, the
primary-key violation raises, is caught, logged and rolled back, so the
table is left unchanged (the same guarded insert as `add_client` on the
full database state below). -/
def addClientRow (clients : List (Nat × String × String)) (uid : Nat)
    (org contact : String) : List (Nat × String × String) :=
  if (clients.find? (fun r => r.1 == uid)).isSome then clients
  else clients ++ [(uid, org, contact)]

/-- `BotHandlers.register_contact` (`handlers.py` lines 89-126): same
validation as the organization step; with a stored organization a valid
contact completes registration (`db.add_client` — whose duplicate-key
failure is swallowed, leaving the table unchanged — then
`user_data.clear()`), without one the dialogue ends with the "data lost"
error and nothing is written. Returns (state, stored organization,
clients table). -/
def register_contact (text : String) (stored : Option String)
    (clients : List (Nat × String × String)) (uid : Nat) :
    RegState × Option String × List (Nat × String × String) :=
  let contact := pyStrip text
  if contact = "" then (.registerContact, stored, clients)
  else if !(regexOk contact) then (.registerContact, stored, clients)
  else
    match stored with
    | none => (.conversationEnd, stored, clients)
    | some org => (.conversationEnd, none, addClientRow clients uid org contact)

/-- The character set named by the specification's words for claim C9:
"Cyrillic letters, Latin letters, spaces, or hyphens", with Cyrillic
letters read as the Unicode Cyrillic block U+0400..U+04FF (which contains
Ё and ё). Stated from the spec only, for comparison with the code's
`regexAllowed`. -/
def specAllowedChar (c : Char) : Bool :=
  (0x400 ≤ c.toNat && c.toNat ≤ 0x4ff) ||
  ('A' ≤ c && c ≤ 'Z') || ('a' ≤ c && c ≤ 'z') ||
  c = ' ' || c = '-'

/-- Counterexample to claim C9 as stated. The organization name "Ёж"
is its own trim, non-empty, and consists only of Cyrillic letters — so
the claim says registration accepts it and advances — yet the code's
regex ranges А-Я and а-я exclude Ё, so `register_org` re-prompts at the
same step and stores nothing. -/
theorem C9_counterexample :
    pyStrip "Ёж" = "Ёж" ∧
    "Ёж" ≠ "" ∧
    (String.data "Ёж").all specAllowedChar = true ∧
    register_org "Ёж" none = (RegState.registerOrg, none) := by
  decide

theorem regexOk_iff (s : String) :
    regexOk s = true ↔ s ≠ "" ∧ ∀ c ∈ s.data, regexAllowed c = true := by
  unfold regexOk
  rw [Bool.and_eq_true, List.all_eq_true]
  constructor
  · rintro ⟨h1, h2⟩
    refine ⟨?_, h2⟩
    intro he
    subst he
    simp at h1
  · rintro ⟨h1, h2⟩
    refine ⟨?_, h2⟩
    cases hd : s.data with
    | nil => exact absurd (String.ext hd) h1
    | cons c cs => simp [hd]

/-- Amended claim C9: for every input string submitted as an
organization or contact-person name, if the trimmed input is empty or
contains any character outside the regex class `[А-Яа-яA-Za-z\s-]` —
the Cyrillic ranges А-Я and а-я (Ё and ё excluded), Latin letters,
whitespace, or hyphens — the step fails validation and re-prompts at the
same state with nothing stored; if the trimmed input consists only of
class characters it is accepted and the flow advances: for the contact
step with a stored organization, registration completes, inserting the
client row when the user id is not yet registered, while for an already
registered user id the insert's duplicate-key failure is swallowed and
the table is unchanged. -/
theorem C9_registration_charset (text : String) (stored : Option String)
    (clients : List (Nat × String × String)) (uid : Nat) (org : String) :
    ((pyStrip text = "" ∨ ∃ c ∈ (pyStrip text).data, regexAllowed c = false) →
      register_org text stored = (RegState.registerOrg, stored) ∧
      register_contact text (some org) clients uid
        = (RegState.registerContact, some org, clients)) ∧
    ((pyStrip text ≠ "" ∧ ∀ c ∈ (pyStrip text).data, regexAllowed c = true) →
      register_org text stored = (RegState.registerContact, some (pyStrip text)) ∧
      ((clients.find? (fun r => r.1 == uid)).isSome = false →
        register_contact text (some org) clients uid
          = (RegState.conversationEnd, none,
              clients ++ [(uid, org, pyStrip text)])) ∧
      ((clients.find? (fun r => r.1 == uid)).isSome = true →
        register_contact text (some org) clients uid
          = (RegState.conversationEnd, none, clients))) := by
  constructor
  · rintro (he | ⟨c, hc, hcf⟩)
    · constructor
      · simp [register_org, he]
      · simp [register_contact, he]
    · have hne : regexOk (pyStrip text) ≠ true := by
        intro hok
        rcases (regexOk_iff _).mp hok with ⟨-, hall⟩
        rw [hall c hc] at hcf
        cases hcf
      by_cases he : pyStrip text = ""
      · exact ⟨by simp [register_org, he], by simp [register_contact, he]⟩
      · constructor
        · simp only [register_org]
          rw [if_neg he, if_pos (by simpa using hne)]
        · simp only [register_contact]
          rw [if_neg he, if_pos (by simpa using hne)]
  · rintro ⟨h1, h2⟩
    have hok : regexOk (pyStrip text) = true := (regexOk_iff _).mpr ⟨h1, h2⟩
    refine ⟨?_, ?_, ?_⟩
    · simp only [register_org]
      rw [if_neg h1, if_neg (by simp [hok])]
    · intro hf
      simp only [register_contact]
      rw [if_neg h1, if_neg (by simp [hok])]
      simp [addClientRow, hf]
    · intro hf
      simp only [register_contact]
      rw [if_neg h1, if_neg (by simp [hok])]
      simp [addClientRow, hf]

/-- Witness for the amended C9 at the specification's own scenario
inputs: "ООО Рога" (valid) advances, "Рога123" (contains digits)
re-prompts, and the valid contact "Иванов Иван" completes registration —
inserting the row for a fresh user id, leaving the table unchanged for
an already registered one. -/
theorem C9_registration_charset_witness :
    ((pyStrip "Рога123" = "" ∨
        ∃ c ∈ (pyStrip "Рога123").data, regexAllowed c = false) ∧
      register_org "Рога123" none = (RegState.registerOrg, none)) ∧
    ((pyStrip "ООО Рога" ≠ "" ∧
        ∀ c ∈ (pyStrip "ООО Рога").data, regexAllowed c = true) ∧
      register_org "ООО Рога" none
        = (RegState.registerContact, some (pyStrip "ООО Рога"))) ∧
    ((pyStrip "Иванов Иван" ≠ "" ∧
        ∀ c ∈ (pyStrip "Иванов Иван").data, regexAllowed c = true) ∧
      (([] : List (Nat × String × String)).find?
          (fun r => r.1 == 0)).isSome = false ∧
      register_contact "Иванов Иван" (some "ООО Рога") [] 0
        = (RegState.conversationEnd, none,
            [] ++ [(0, "ООО Рога", pyStrip "Иванов Иван")]) ∧
      (([(0, "x", "y")] : List (Nat × String × String)).find?
          (fun r => r.1 == 0)).isSome = true ∧
      register_contact "Иванов Иван" (some "ООО Рога") [(0, "x", "y")] 0
        = (RegState.conversationEnd, none, [(0, "x", "y")])) :=
  ⟨⟨Or.inr (by decide),
    ((C9_registration_charset "Рога123" none [] 0 "x").1
      (Or.inr (by decide))).1⟩,
   ⟨⟨by decide, by decide⟩,
    ((C9_registration_charset "ООО Рога" none [] 0 "x").2
      ⟨by decide, by decide⟩).1⟩,
   ⟨⟨by decide, by decide⟩,
    by decide,
    ((C9_registration_charset "Иванов Иван" none [] 0 "ООО Рога").2
      ⟨by decide, by decide⟩).2.1 (by decide),
    by decide,
    ((C9_registration_charset "Иванов Иван" none [(0, "x", "y")] 0 "ООО Рога").2
      ⟨by decide, by decide⟩).2.2 (by decide)⟩⟩

/-- What `Database.get_client` returns (`db.py` lines 58-70): the
`(organization, contact_person)` pair, or `(None, None)` for an
unregistered user. -/
abbrev ClientVal := Option String × Option String

/-- The state of a `Database` instance: the `clients` table rows and the
`functools.lru_cache` attached to `get_client` (most recently used entry
first; a single `Database` instance, so the `self` part of the cache key
is constant). -/
structure DbState where
  clients : List (Nat × String × String)
  cache : List (Nat × ClientVal)
deriving DecidableEq, Repr

/-- The SELECT of `get_client`: first row with the user id, or the
`(None, None)` fallback. -/
def clientsLookup (clients : List (Nat × String × String))
    (uid : Nat) : ClientVal :=
  match clients.find? (fun r => r.1 == uid) with
  | some r => (some r.2.1, some r.2.2)
  | none => (none, none)

/-- Lookup in the lru cache. -/
def cacheLookup (cache : List (Nat × ClientVal)) (uid : Nat) :
    Option ClientVal :=
  (cache.find? (fun e => e.1 == uid)).map (fun e => e.2)

/-- The `maxsize` of the `lru_cache` decorating `get_client` (`db.py`
line 58). -/
def lruMaxsize : Nat := 100

/-- `Database.get_client` under `@lru_cache(maxsize=100)`: a hit returns
the cached value and moves the entry to most-recently-used; a miss runs
the query, inserts the result as most-recently-used and evicts the least
recently used entry beyond `maxsize`. -/
def get_client (st : DbState) (uid : Nat) : ClientVal × DbState :=
  match cacheLookup st.cache uid with
  | some v =>
    (v, { st with cache := (uid, v) :: st.cache.filter (fun e => !(e.1 == uid)) })
  | none =>
    let v := clientsLookup st.clients uid
    (v, { st with cache := ((uid, v) :: st.cache).take lruMaxsize })

/-- `Database.add_client` (`db.py` lines 72-86): a plain INSERT into
`clients`; the primary-key violation on an existing `user_id` raises,
is caught and rolled back, so the table is unchanged in that case. The
method never touches the `get_client` cache. -/
def add_client (st : DbState) (uid : Nat) (org contact : String) : DbState :=
  if (st.clients.find? (fun r => r.1 == uid)).isSome then st
  else { st with clients := st.clients ++ [(uid, org, contact)] }

/-- The database operations relevant to claim C10. -/
inductive DbOp
| getClient (uid : Nat)
| addClient (uid : Nat) (org contact : String)

/-- State effect of one operation. -/
def runOp (st : DbState) : DbOp → DbState
  | .getClient uid => (get_client st uid).2
  | .addClient uid org contact => add_client st uid org contact

/-- State effect of an operation sequence. -/
def runOps (st : DbState) (ops : List DbOp) : DbState := ops.foldl runOp st

/-- The eviction scenario for the C10 counterexample: starting right
after `get_client 0` cached `(None, None)`, register user 0 and then
look up 100 distinct other users. -/
def evictOps : List DbOp :=
  DbOp.addClient 0 "Org" "Contact" ::
    (List.range lruMaxsize).map (fun i => DbOp.getClient (i + 1))

set_option maxRecDepth 100000 in
/-- Counterexample to claim C10 as stated. On an empty database,
`get_client 0` returns `(None, None)` and caches it; after
`add_client 0` and `get_client` calls for 100 distinct other users, the
100-entry LRU cache has evicted user 0's entry, and the next
`get_client 0` re-queries the table and returns the registered profile
`(Org, Contact)` — not the cached `(None, None)` the claim promises for
every subsequent call. -/
theorem C10_counterexample :
    (get_client ⟨[], []⟩ 0).1 = ((none, none) : ClientVal) ∧
    (get_client (runOps (get_client ⟨[], []⟩ 0).2 evictOps) 0).1
      = ((some "Org", some "Contact") : ClientVal) := by
  decide

theorem cacheLookup_cons_self (c : List (Nat × ClientVal)) (uid : Nat)
    (v : ClientVal) : cacheLookup ((uid, v) :: c) uid = some v := by
  unfold cacheLookup
  rw [List.find?_cons_of_pos _ (by simp)]
  rfl

theorem cacheLookup_take_cons_self (c : List (Nat × ClientVal)) (uid : Nat)
    (v : ClientVal) (n : Nat) (hn : n ≠ 0) :
    cacheLookup (((uid, v) :: c).take n) uid = some v := by
  cases n with
  | zero => cases hn rfl
  | succ m =>
    rw [List.take_succ_cons]
    exact cacheLookup_cons_self _ _ _

theorem get_client_caches (st : DbState) (uid : Nat) :
    cacheLookup (get_client st uid).2.cache uid = some (get_client st uid).1 := by
  cases h : cacheLookup st.cache uid with
  | some v =>
    simp only [get_client, h]
    exact cacheLookup_cons_self _ uid v
  | none =>
    simp only [get_client, h]
    exact cacheLookup_take_cons_self _ uid _ lruMaxsize (by decide)

theorem get_client_hit (s : DbState) (uid : Nat) (v : ClientVal)
    (h : cacheLookup s.cache uid = some v) : (get_client s uid).1 = v := by
  simp [get_client, h]

/-- Amended claim C10: `get_client` is memoized per user id by the
100-entry `lru_cache` and `add_client` performs no cache invalidation —
it never touches the cache at all — so once `get_client(u)` has returned
a value, that value is cached, and every subsequent `get_client(u)` made
while u's entry is still cached returns it; in particular a
`get_client(u)` immediately following a successful `add_client(u, ...)`
still returns the pre-registration value. The cached value for u can
change only after LRU eviction, which requires at least 100 cache misses
for distinct other user ids in between (see the counterexample). -/
theorem C10_cache_semantics (st : DbState) (uid : Nat) (org contact : String)
    (v : ClientVal) (hv : (get_client st uid).1 = v) :
    cacheLookup (get_client st uid).2.cache uid = some v ∧
    (∀ (s : DbState) (u : Nat) (o c : String),
      (add_client s u o c).cache = s.cache) ∧
    (∀ s : DbState, cacheLookup s.cache uid = some v →
      (get_client s uid).1 = v) ∧
    (get_client (add_client (get_client st uid).2 uid org contact) uid).1 = v := by
  subst hv
  refine ⟨get_client_caches st uid, ?_, ?_, ?_⟩
  · intro s u o c
    unfold add_client
    by_cases h : (s.clients.find? (fun r => r.1 == u)).isSome <;> simp [h]
  · exact fun s h => get_client_hit s uid _ h
  · apply get_client_hit
    have hc : (add_client (get_client st uid).2 uid org contact).cache
        = (get_client st uid).2.cache := by
      unfold add_client
      by_cases h : ((get_client st uid).2.clients.find?
        (fun r => r.1 == uid)).isSome <;> simp [h]
    rw [hc]
    exact get_client_caches st uid

/-- Witness for the amended C10 at a concrete state: on an empty
database, `get_client 0` caches `(None, None)`; registering user 0 does
not touch the cache, and the next `get_client 0` still answers
`(None, None)`. -/
theorem C10_cache_semantics_witness :
    ((get_client ⟨[], []⟩ 0).1 = ((none, none) : ClientVal)) ∧
    (cacheLookup (get_client ⟨[], []⟩ 0).2.cache 0
        = some ((none, none) : ClientVal) ∧
      (∀ (s : DbState) (u : Nat) (o c : String),
        (add_client s u o c).cache = s.cache) ∧
      (∀ s : DbState, cacheLookup s.cache 0 = some ((none, none) : ClientVal) →
        (get_client s 0).1 = ((none, none) : ClientVal)) ∧
      (get_client (add_client (get_client ⟨[], []⟩ 0).2 0 "Org" "Contact") 0).1
        = ((none, none) : ClientVal)) :=
  ⟨rfl, C10_cache_semantics ⟨[], []⟩ 0 "Org" "Contact" (none, none) rfl⟩
